import Mathlib

/-!
Verification of the polyseed mnemonic seed codec (Go implementation).

All machine integers of the source are modelled as `Nat` with explicit
truncation (`% 2 ^ w`) where the source performs a narrowing cast, and the
Go bitwise operators are kept as the corresponding `Nat` operators
(`&&&`, `|||`, `^^^`, `<<<`, `>>>`).  Byte arrays are modelled as `List Nat`
whose elements are below 256.  Fallible operations return `Except Status`.
-/

namespace Polyseed

/-! ### Constants (polyseed.go, gf.go, birthday.go, features.go, storage.go) -/

def NumWords : Nat := 16

def StorageSize : Nat := 32

def LangSize : Nat := 2048

def gfBits : Nat := 11

def gfSize : Nat := 1 <<< gfBits

def gfMask : Nat := gfSize - 1

def polyNumCheckDigits : Nat := 1

def shareBits : Nat := 10

def dataWords : Nat := NumWords - polyNumCheckDigits

def DateBits : Nat := 10

def dateBits : Nat := DateBits

def DateMask : Nat := (1 <<< DateBits) - 1

def dateMask : Nat := DateMask

def featureBits : Nat := 5

def featureMask : Nat := (1 <<< featureBits) - 1

def userFeatures : Nat := 3

def userFeaturesMask : Nat := (1 <<< userFeatures) - 1

def encryptedMask : Nat := 16

def secretSize : Nat := 19

def secretBitsConst : Nat := 150

def clearBits : Nat := secretSize * 8 - secretBitsConst

/-- Go: `clearMask = ^uint8(((1 << clearBits) - 1) << (8 - clearBits))`;
the complement of a `uint8` is its xor with `0xFF`. -/
def clearMask : Nat := ((1 <<< clearBits) - 1) <<< (8 - clearBits) ^^^ 255

def kdfNumIterations : Nat := 10000

/-! ### Status codes (polyseed.go) -/

inductive Status where
  | StatusOK
  | StatusErrNumWords
  | StatusErrLang
  | StatusErrChecksum
  | StatusErrUnsupported
  | StatusErrFormat
  | StatusErrMemory
  | StatusErrMultLang
deriving DecidableEq, Repr

/-! ### Seed and internal data (polyseed.go) -/

structure Seed where
  birthday : Nat
  features : Nat
  secret : List Nat
  checksum : Nat
deriving DecidableEq, Repr

structure Data where
  birthday : Nat
  features : Nat
  secret : List Nat
  checksum : Nat
deriving DecidableEq, Repr

def Seed.toData (s : Seed) : Data :=
  ⟨s.birthday, s.features, s.secret, s.checksum⟩

def seedFromData (d : Data) : Seed :=
  ⟨d.birthday, d.features, d.secret, d.checksum⟩

/-! ### Feature registry (features.go).

The process-wide mutable variable `reservedFeatures` is modelled by explicit
state passing: functions that read it take its current value as an argument,
and `EnableFeatures` returns the new value together with its count. -/

def makeFeatures (userFeaturesArg : Nat) : Nat :=
  userFeaturesArg &&& userFeaturesMask

def getFeatures (features mask : Nat) : Nat :=
  features &&& (mask &&& userFeaturesMask)

def isEncrypted (features : Nat) : Bool :=
  features &&& encryptedMask != 0

def featuresSupported (features reservedFeatures : Nat) : Bool :=
  features &&& reservedFeatures == 0

/-- Startup value of `reservedFeatures`. -/
def reservedFeaturesInit : Nat := featureMask ^^^ encryptedMask

/-- Loop body of `EnableFeatures` for bit `i`. -/
def enableFeaturesStep (mask : Nat) (acc : Nat × Nat) (i : Nat) : Nat × Nat :=
  let fmask := 1 <<< i
  if mask &&& fmask != 0 then (acc.1 ^^^ fmask, acc.2 + 1) else acc

/-- Go `EnableFeatures`: ignores the previous `reservedFeatures` value, which it
overwrites with the startup value before clearing the requested bits.  Returns
the new `reservedFeatures` and the number of enabled features. -/
def EnableFeatures (mask : Nat) (reservedFeatures : Nat) : Nat × Nat :=
  let reservedFeatures := featureMask ^^^ encryptedMask
  (List.range userFeatures).foldl (enableFeaturesStep mask) (reservedFeatures, 0)

def Seed.GetFeature (s : Seed) (mask : Nat) : Nat :=
  getFeatures s.features mask

def Seed.IsEncrypted (s : Seed) : Bool :=
  isEncrypted s.features

/-! ### GF(2048) arithmetic (gf.go) -/

def mul2Table : List Nat := [5, 7, 1, 3, 13, 15, 9, 11]

/-- Go `gfElem.mul2`. -/
def gfMul2 (x : Nat) : Nat :=
  if x < 1024 then 2 * x
  else mul2Table.getD (x % 8) 0 + 16 * ((x - 1024) / 8)

/-- Horner evaluation of the polynomial at x = 2: start from the last
coefficient and fold down to coefficient 0 (Go `gfPoly.eval`). -/
def gfEval (p : List Nat) : Nat :=
  match p.reverse with
  | [] => 0
  | c :: cs => cs.foldl (fun r c => gfMul2 r ^^^ c) c

/-- Go `gfPoly.encode`: stores `eval()` into coefficient 0 (without first
clearing the old value of coefficient 0). -/
def gfEncode (p : List Nat) : List Nat :=
  p.set 0 (gfEval p)

/-- Go `gfPoly.check`. -/
def gfCheck (p : List Nat) : Bool :=
  gfEval p == 0

/-! ### Helper lemmas on bit arithmetic -/

/-- Shifting `a` left past `k` bits and or-ing in a `k`-bit value is
concatenation: `a <<< k ||| b = a * 2 ^ k + b`. -/
theorem shiftLeft_lor_eq_add (k : Nat) : ∀ a b : Nat, b < 2 ^ k →
    a <<< k ||| b = a * 2 ^ k + b := by
  induction k with
  | zero =>
    intro a b hb
    interval_cases b
    simp [Nat.shiftLeft_eq]
  | succ n ih =>
    intro a b hb
    have hdiv : (a <<< (n + 1) ||| b) / 2 = a * 2 ^ n + b / 2 := by
      rw [Nat.or_div_two]
      have h1 : a <<< (n + 1) / 2 = a <<< n := by
        simp [Nat.shiftLeft_eq, Nat.pow_succ, ← Nat.mul_assoc,
          Nat.mul_div_cancel]
      rw [h1, ih a (b / 2) (by omega)]
    have hmod : (a <<< (n + 1) ||| b) % 2 = b % 2 := by
      have hsh : a <<< (n + 1) % 2 = 0 := by
        simp [Nat.shiftLeft_eq, Nat.pow_succ, ← Nat.mul_assoc]
      rcases Nat.mod_two_eq_zero_or_one b with h | h
      · have : ¬ ((a <<< (n + 1) ||| b) % 2 = 1) := by
          simp only [Nat.or_mod_two_eq_one]
          omega
        omega
      · have : (a <<< (n + 1) ||| b) % 2 = 1 := by
          simp only [Nat.or_mod_two_eq_one]
          omega
        omega
    have hb2 : a <<< (n + 1) ||| b =
        2 * ((a <<< (n + 1) ||| b) / 2) + (a <<< (n + 1) ||| b) % 2 := by
      omega
    rw [hb2, hdiv, hmod]
    ring_nf
    omega

/-- `gfMul2` stays inside the field and is inverted by an explicit function:
checked by exhaustive evaluation. -/
def gfDiv2 (y : Nat) : Nat :=
  if y % 2 = 0 then y / 2
  else 1024 + 8 * (y / 16) + [0, 2, 0, 3, 0, 0, 0, 1, 0, 6, 0, 7, 0, 4, 0, 5].getD (y % 16) 0

theorem gfMul2_lt (x : Nat) (hx : x < 2048) : gfMul2 x < 2048 := by
  unfold gfMul2
  by_cases h : x < 1024
  · simp only [if_pos h]; omega
  · simp only [if_neg h]
    obtain ⟨r, hr⟩ : ∃ r, x % 8 = r := ⟨_, rfl⟩
    have hr8 : r < 8 := by omega
    rw [hr]
    interval_cases r <;> simp only [mul2Table, List.getD, List.get?, Option.getD] <;> omega

theorem gfDiv2_gfMul2 (x : Nat) (hx : x < 2048) : gfDiv2 (gfMul2 x) = x := by
  by_cases h : x < 1024
  · have hm : gfMul2 x = 2 * x := by simp [gfMul2, h]
    rw [hm]
    have h2 : (2 * x) % 2 = 0 := by omega
    simp [gfDiv2, h2]
  · obtain ⟨q, hq⟩ : ∃ q, (x - 1024) / 8 = q := ⟨_, rfl⟩
    obtain ⟨r, hr⟩ : ∃ r, x % 8 = r := ⟨_, rfl⟩
    have hr8 : r < 8 := by omega
    have hm : gfMul2 x = mul2Table.getD r 0 + 16 * q := by
      simp only [gfMul2, if_neg h, hq, hr]
    rw [hm]
    interval_cases r <;>
      · simp only [mul2Table, List.getD, List.get?, Option.getD] at *
        unfold gfDiv2
        rw [if_neg (by omega)]
        have h16 : ∀ t : Nat, t < 16 → (t + 16 * q) % 16 = t := by omega
        rw [h16 _ (by norm_num)]
        simp only [List.getD, List.get?, Option.getD]
        omega

theorem gfMul2_inj {x y : Nat} (hx : x < 2048) (hy : y < 2048)
    (h : gfMul2 x = gfMul2 y) : x = y := by
  have h1 := gfDiv2_gfMul2 x hx
  have h2 := gfDiv2_gfMul2 y hy
  rw [← h1, ← h2, h]

/-- Horner fold step bound. -/
theorem gfFold_lt (l : List Nat) : ∀ acc : Nat, acc < 2048 →
    (∀ c ∈ l, c < 2048) →
    l.foldl (fun r c => gfMul2 r ^^^ c) acc < 2048 := by
  induction l with
  | nil => intro acc hacc _; simpa using hacc
  | cons x xs ih =>
    intro acc hacc hmem
    simp only [List.foldl_cons]
    have hx : x < 2048 := hmem x (by simp)
    have hstep : gfMul2 acc ^^^ x < 2048 := by
      have := gfMul2_lt acc hacc
      have h2048 : (2048 : Nat) = 2 ^ 11 := by norm_num
      rw [h2048] at *
      exact Nat.xor_lt_two_pow (by omega) (by omega)
    exact ih _ hstep (fun c hc => hmem c (by simp [hc]))

theorem gfEval_lt (p : List Nat) (h : ∀ c ∈ p, c < 2048) : gfEval p < 2048 := by
  unfold gfEval
  rcases hrev : p.reverse with _ | ⟨c, cs⟩
  · norm_num
  · have hmem : ∀ x ∈ c :: cs, x < 2048 := by
      intro x hx
      apply h
      rw [← List.mem_reverse, hrev]
      exact hx
    exact gfFold_lt cs c (hmem c (by simp)) (fun x hx => hmem x (by simp [hx]))

/-- Evaluation of a polynomial written `c0 :: rest`: the last Horner step xors
the check digit into the evaluation of the tail. -/
theorem gfEval_cons (c0 : Nat) (rest : List Nat) (h : rest ≠ []) :
    gfEval (c0 :: rest) = gfMul2 (gfEval rest) ^^^ c0 := by
  unfold gfEval
  rcases hrev : rest.reverse with _ | ⟨r, rs⟩
  · exact absurd (by simpa using hrev) h
  · have : (c0 :: rest).reverse = r :: (rs ++ [c0]) := by
      simp [hrev]
    rw [this]
    simp [List.foldl_append]

theorem gfEval_cons_zero (c0 : Nat) (rest : List Nat) (h : rest ≠ []) :
    gfEval (c0 :: rest) = gfEval ((0 : Nat) :: rest) ^^^ c0 := by
  rw [gfEval_cons c0 rest h, gfEval_cons 0 rest h, Nat.xor_zero]

/-! ### Bit-packing codec (gf.go: dataToPoly / polyToData) -/

def charBits : Nat := 8

def secretBitsTotal : Nat := 150

/-- One pass of the inner loop of `dataToPoly` over the state
`(wordBits, wordVal, secretIdx, secretVal, secretBits, seedRemBits)`:
guarded by the loop condition `wordBits < shareBits`, it refills `secretVal`
from the next secret byte when the current one is exhausted and moves one
chunk of secret bits into `wordVal`. -/
def dataToPolyStep (secret : List Nat)
    (st : Nat × Nat × Nat × Nat × Nat × Nat) : Nat × Nat × Nat × Nat × Nat × Nat :=
  let wordBits := st.1
  let wordVal := st.2.1
  let secretIdx := st.2.2.1
  let secretVal := st.2.2.2.1
  let secretBits := st.2.2.2.2.1
  let seedRemBits := st.2.2.2.2.2
  if wordBits < shareBits then
    let next :=
      if secretBits = 0 then
        let secretIdx := secretIdx + 1
        let secretBits := if seedRemBits < charBits then seedRemBits else charBits
        (secretIdx, secret.getD secretIdx 0, secretBits, seedRemBits - secretBits)
      else
        (secretIdx, secretVal, secretBits, seedRemBits)
    let secretIdx := next.1
    let secretVal := next.2.1
    let secretBits := next.2.2.1
    let seedRemBits := next.2.2.2
    let chunkBits := shareBits - wordBits
    let chunkBits := if chunkBits > secretBits then secretBits else chunkBits
    let secretBits := secretBits - chunkBits
    let wordBits := wordBits + chunkBits
    let wordVal := wordVal <<< chunkBits |||
      (secretVal >>> secretBits) &&& ((1 <<< chunkBits) - 1)
    (wordBits, wordVal, secretIdx, secretVal, secretBits, seedRemBits)
  else st

/-- The inner `for wordBits < shareBits` loop of `dataToPoly`.  One 10-bit
group spans at most two byte boundaries, so three guarded passes always
suffice; once the guard fails further passes are the identity. -/
def dataToPolyWord (secret : List Nat)
    (st : Nat × Nat × Nat × Nat × Nat × Nat) : Nat × Nat × Nat × Nat × Nat × Nat :=
  dataToPolyStep secret (dataToPolyStep secret (dataToPolyStep secret st))

/-- Body of the outer loop of `dataToPoly` for the Go index `i`, acting on
`(p, extraBits, secretIdx, secretVal, secretBits, seedRemBits)`. -/
def dataToPolyOuter (secret : List Nat) (extraVal : Nat)
    (acc : List Nat × Nat × Nat × Nat × Nat × Nat) (i : Nat) :
    List Nat × Nat × Nat × Nat × Nat × Nat :=
  let p := acc.1
  let extraBits := acc.2.1
  let st := dataToPolyWord secret (0, 0, acc.2.2.1, acc.2.2.2.1, acc.2.2.2.2.1, acc.2.2.2.2.2)
  let wordVal := st.2.1
  let extraBits := extraBits - 1
  let wordVal := wordVal <<< 1
  let wordVal := wordVal ||| (extraVal >>> extraBits) &&& 1
  let p := p.set (polyNumCheckDigits + i) wordVal
  (p, extraBits, st.2.2.1, st.2.2.2.1, st.2.2.2.2.1, st.2.2.2.2.2)

/-- Go `dataToPoly`: packs `(birthday, features, secret)` into coefficients
`1..15` of `p`, leaving coefficient 0 as given. -/
def dataToPoly (d : Data) (p : List Nat) : List Nat :=
  let extraVal := d.features <<< dateBits ||| d.birthday
  let extraBits := featureBits + dateBits
  let secretIdx := 0
  let secretVal := d.secret.getD secretIdx 0
  let secretBits := charBits
  let seedRemBits := secretBitsTotal - secretBits
  ((List.range dataWords).foldl (dataToPolyOuter d.secret extraVal)
    (p, extraBits, secretIdx, secretVal, secretBits, seedRemBits)).1

/-- One pass of the inner loop of `polyToData` over the state
`(wordBits, wordVal, secretIdx, secretBits, seedBits, secret)`: guarded by
the loop condition `wordBits > 0`, it advances to the next secret byte when
the current one is full and deposits one chunk of `wordVal` into it. -/
def polyToDataStep (st : Nat × Nat × Nat × Nat × Nat × List Nat) :
    Nat × Nat × Nat × Nat × Nat × List Nat :=
  let wordBits := st.1
  let wordVal := st.2.1
  let secretIdx := st.2.2.1
  let secretBits := st.2.2.2.1
  let seedBits := st.2.2.2.2.1
  let secret := st.2.2.2.2.2
  if wordBits > 0 then
    let next :=
      if secretBits = charBits then (secretIdx + 1, 0, seedBits + secretBits)
      else (secretIdx, secretBits, seedBits)
    let secretIdx := next.1
    let secretBits := next.2.1
    let seedBits := next.2.2
    let chunkBits := wordBits
    let chunkBits := if chunkBits > charBits - secretBits then charBits - secretBits
      else chunkBits
    let wordBits := wordBits - chunkBits
    let chunkMask := (1 <<< chunkBits) - 1
    let secret := if chunkBits < charBits then
        secret.set secretIdx (secret.getD secretIdx 0 <<< chunkBits)
      else secret
    let secret := secret.set secretIdx
      (secret.getD secretIdx 0 ||| (wordVal >>> wordBits) &&& chunkMask)
    let secretBits := secretBits + chunkBits
    (wordBits, wordVal, secretIdx, secretBits, seedBits, secret)
  else st

/-- The inner `for wordBits > 0` loop of `polyToData`; three guarded passes
always suffice, and passes after the guard fails are the identity. -/
def polyToDataWord (st : Nat × Nat × Nat × Nat × Nat × List Nat) :
    Nat × Nat × Nat × Nat × Nat × List Nat :=
  polyToDataStep (polyToDataStep (polyToDataStep st))

/-- Body of the outer loop of `polyToData` for the Go index `i`, acting on
`(extraVal, extraBits, secretIdx, secretBits, seedBits, secret)`. -/
def polyToDataOuter (p : List Nat)
    (acc : Nat × Nat × Nat × Nat × Nat × List Nat) (i : Nat) :
    Nat × Nat × Nat × Nat × Nat × List Nat :=
  let extraVal := acc.1
  let extraBits := acc.2.1
  let wordVal := p.getD i 0
  let extraVal := extraVal <<< 1
  let extraVal := extraVal ||| wordVal &&& 1
  let wordVal := wordVal >>> 1
  let wordBits := gfBits - 1
  let extraBits := extraBits + 1
  let st := polyToDataWord (wordBits, wordVal, acc.2.2.1, acc.2.2.2.1, acc.2.2.2.2.1, acc.2.2.2.2.2)
  (extraVal, extraBits, st.2.2.1, st.2.2.2.1, st.2.2.2.2.1, st.2.2.2.2.2)

/-- Go `polyToData`: zero the data record, read the checksum from coefficient
0, then unpack coefficients `1..15` into the metadata bits and the secret
bytes.  Neither `extraVal >>> dateBits` (5 bits) nor `extraVal &&& dateMask`
(10 bits) can overflow their Go integer types, so the narrowing casts are
identities. -/
def polyToData (p : List Nat) : Data :=
  let secret := List.replicate 32 0
  let checksum := p.getD 0 0
  let st := ((List.range NumWords).drop polyNumCheckDigits).foldl (polyToDataOuter p)
    (0, 0, 0, 0, 0, secret)
  let extraVal := st.1
  let secret := st.2.2.2.2.2
  { birthday := extraVal &&& dateMask
    features := extraVal >>> dateBits
    secret := secret
    checksum := checksum }

/-! ### Helper lemmas for the bit-level normal forms -/

theorem and_mod_3 (x : Nat) : x &&& 3 = x % 4 := by
  have h := Nat.and_pow_two_sub_one_eq_mod x 2
  norm_num at h
  exact h

theorem and_mod_15 (x : Nat) : x &&& 15 = x % 16 := by
  have h := Nat.and_pow_two_sub_one_eq_mod x 4
  norm_num at h
  exact h

theorem and_mod_63 (x : Nat) : x &&& 63 = x % 64 := by
  have h := Nat.and_pow_two_sub_one_eq_mod x 6
  norm_num at h
  exact h

theorem and_mod_255 (x : Nat) : x &&& 255 = x % 256 := by
  have h := Nat.and_pow_two_sub_one_eq_mod x 8
  norm_num at h
  exact h

theorem and_mod_1023 (x : Nat) : x &&& 1023 = x % 1024 := by
  have h := Nat.and_pow_two_sub_one_eq_mod x 10
  norm_num at h
  exact h

theorem lor_add_2 (a b : Nat) (h : b < 2) : a * 2 ||| b = a * 2 + b := by
  have h2 := shiftLeft_lor_eq_add 1 a b (by omega)
  simpa [Nat.shiftLeft_eq] using h2

theorem lor_add_4 (a b : Nat) (h : b < 4) : a * 4 ||| b = a * 4 + b := by
  have h2 := shiftLeft_lor_eq_add 2 a b (by omega)
  simpa [Nat.shiftLeft_eq] using h2

theorem lor_add_16 (a b : Nat) (h : b < 16) : a * 16 ||| b = a * 16 + b := by
  have h2 := shiftLeft_lor_eq_add 4 a b (by omega)
  simpa [Nat.shiftLeft_eq] using h2

theorem lor_add_64 (a b : Nat) (h : b < 64) : a * 64 ||| b = a * 64 + b := by
  have h2 := shiftLeft_lor_eq_add 6 a b (by omega)
  simpa [Nat.shiftLeft_eq] using h2

theorem lor_add_256 (a b : Nat) (h : b < 256) : a * 256 ||| b = a * 256 + b := by
  have h2 := shiftLeft_lor_eq_add 8 a b (by omega)
  simpa [Nat.shiftLeft_eq] using h2

theorem lor_add_1024 (a b : Nat) (h : b < 1024) : a * 1024 ||| b = a * 1024 + b := by
  have h2 := shiftLeft_lor_eq_add 10 a b (by omega)
  simpa [Nat.shiftLeft_eq] using h2

theorem range15 : List.range 15 = [0, 1, 2, 3, 4, 5, 6, 7, 8, 9, 10, 11, 12, 13, 14] := by rfl

def specSecretNat (secret : List Nat) : Nat :=
  (secret.take 18).foldl (fun a c => a * 256 + c) 0 * 64 + secret.getD 18 0

def specMeta (features birthday : Nat) : Nat := features * 1024 + birthday

def specCoeff (secret : List Nat) (features birthday i : Nat) : Nat :=
  specSecretNat secret / 2 ^ (140 - 10 * i) % 1024 * 2
    + specMeta features birthday / 2 ^ (14 - i) % 2



set_option maxRecDepth 100000 in
set_option maxHeartbeats 8000000 in
theorem dataToPoly_closed (b f ck x : Nat)
    (s0 s1 s2 s3 s4 s5 s6 s7 s8 s9 s10 s11 s12 s13 s14 s15 s16 s17 s18 : Nat)
    (rest : List Nat)
    (hb : b < 1024) (hf : f < 32)
    (h0 : s0 < 256) (h1 : s1 < 256) (h2 : s2 < 256) (h3 : s3 < 256)
    (h4 : s4 < 256) (h5 : s5 < 256) (h6 : s6 < 256) (h7 : s7 < 256)
    (h8 : s8 < 256) (h9 : s9 < 256) (h10 : s10 < 256) (h11 : s11 < 256)
    (h12 : s12 < 256) (h13 : s13 < 256) (h14 : s14 < 256) (h15 : s15 < 256)
    (h16 : s16 < 256) (h17 : s17 < 256) (h18 : s18 < 64) :
    dataToPoly ⟨b, f, [s0, s1, s2, s3, s4, s5, s6, s7, s8, s9, s10, s11, s12,
        s13, s14, s15, s16, s17, s18] ++ rest, ck⟩ (x :: List.replicate 15 0) =
      x :: (List.range 15).map (fun i =>
        specCoeff [s0, s1, s2, s3, s4, s5, s6, s7, s8, s9, s10, s11, s12,
          s13, s14, s15, s16, s17, s18] f b i) := by
  simp only [dataToPoly, dataToPolyOuter, dataToPolyWord, dataToPolyStep,
    shareBits, charBits, secretBitsTotal, dateBits, DateBits, featureBits,
    polyNumCheckDigits, dataWords, NumWords, range15,
    specCoeff, specSecretNat, specMeta,
    List.foldl_cons, List.foldl_nil, List.map_cons, List.map_nil,
    List.getD_cons_zero, List.getD_cons_succ, List.cons_append,
    List.take_succ_cons, List.take_zero,
    List.set_cons_zero, List.set_cons_succ, List.replicate,
    Nat.reduceAdd, Nat.reduceSub, Nat.reduceLT, Nat.reduceGT,
    Nat.reduceShiftLeft, Nat.reduceEqDiff, Nat.reduceBEq, reduceIte,
    Nat.reduceMul, Nat.reduceDiv, Nat.reduceMod, Nat.reducePow,
    List.nil_append]
  simp (disch := omega) only [Nat.shiftLeft_eq, Nat.shiftRight_eq_div_pow,
    Nat.and_one_is_mod, and_mod_3, and_mod_15, and_mod_63, and_mod_255,
    and_mod_1023, lor_add_2, lor_add_4, lor_add_16, lor_add_64, lor_add_256,
    lor_add_1024, Nat.reducePow, Nat.reduceMul, Nat.reduceAdd, Nat.reduceSub,
    Nat.reduceDiv, Nat.reduceMod, Nat.zero_mul, Nat.mul_zero, Nat.zero_add,
    Nat.add_zero, Nat.zero_div, Nat.zero_mod, Nat.zero_or, Nat.or_zero]
  simp only [List.cons.injEq, and_true, true_and]
  repeat' apply And.intro
  all_goals omega




set_option maxRecDepth 100000 in
set_option maxHeartbeats 8000000 in
theorem dataToPoly_bytes (b f ck x : Nat)
    (s0 s1 s2 s3 s4 s5 s6 s7 s8 s9 s10 s11 s12 s13 s14 s15 s16 s17 s18 : Nat)
    (rest : List Nat)
    (hb : b < 1024)
    (h0 : s0 < 256) (h1 : s1 < 256) (h2 : s2 < 256) (h3 : s3 < 256)
    (h4 : s4 < 256) (h5 : s5 < 256) (h6 : s6 < 256) (h7 : s7 < 256)
    (h8 : s8 < 256) (h9 : s9 < 256) (h10 : s10 < 256) (h11 : s11 < 256)
    (h12 : s12 < 256) (h13 : s13 < 256) (h14 : s14 < 256) (h15 : s15 < 256)
    (h16 : s16 < 256) (h17 : s17 < 256) (h18 : s18 < 64) :
    dataToPoly ⟨b, f, [s0, s1, s2, s3, s4, s5, s6, s7, s8, s9, s10, s11, s12,
        s13, s14, s15, s16, s17, s18] ++ rest, ck⟩ (x :: List.replicate 15 0) =
      [x,
       (s0 * 4 + s1 / 64) * 2 + (f * 1024 + b) / 16384 % 2,
       (s1 % 64 * 16 + s2 / 16) * 2 + (f * 1024 + b) / 8192 % 2,
       (s2 % 16 * 64 + s3 / 4) * 2 + (f * 1024 + b) / 4096 % 2,
       (s3 % 4 * 256 + s4) * 2 + (f * 1024 + b) / 2048 % 2,
       (s5 * 4 + s6 / 64) * 2 + (f * 1024 + b) / 1024 % 2,
       (s6 % 64 * 16 + s7 / 16) * 2 + (f * 1024 + b) / 512 % 2,
       (s7 % 16 * 64 + s8 / 4) * 2 + (f * 1024 + b) / 256 % 2,
       (s8 % 4 * 256 + s9) * 2 + (f * 1024 + b) / 128 % 2,
       (s10 * 4 + s11 / 64) * 2 + (f * 1024 + b) / 64 % 2,
       (s11 % 64 * 16 + s12 / 16) * 2 + (f * 1024 + b) / 32 % 2,
       (s12 % 16 * 64 + s13 / 4) * 2 + (f * 1024 + b) / 16 % 2,
       (s13 % 4 * 256 + s14) * 2 + (f * 1024 + b) / 8 % 2,
       (s15 * 4 + s16 / 64) * 2 + (f * 1024 + b) / 4 % 2,
       (s16 % 64 * 16 + s17 / 16) * 2 + (f * 1024 + b) / 2 % 2,
       (s17 % 16 * 64 + s18) * 2 + (f * 1024 + b) % 2] := by
  simp only [dataToPoly, dataToPolyOuter, dataToPolyWord, dataToPolyStep,
    shareBits, charBits, secretBitsTotal, dateBits, DateBits, featureBits,
    polyNumCheckDigits, dataWords, NumWords, range15,
    List.foldl_cons, List.foldl_nil,
    List.getD_cons_zero, List.getD_cons_succ, List.cons_append,
    List.set_cons_zero, List.set_cons_succ, List.replicate,
    Nat.reduceAdd, Nat.reduceSub, Nat.reduceLT, Nat.reduceGT,
    Nat.reduceShiftLeft, Nat.reduceEqDiff, Nat.reduceBEq, reduceIte,
    Nat.reduceMul, Nat.reduceDiv, Nat.reduceMod, Nat.reducePow,
    List.nil_append]
  simp (disch := omega) only [Nat.shiftLeft_eq, Nat.shiftRight_eq_div_pow,
    Nat.and_one_is_mod, and_mod_3, and_mod_15, and_mod_63, and_mod_255,
    and_mod_1023, lor_add_2, lor_add_4, lor_add_16, lor_add_64, lor_add_256,
    lor_add_1024, Nat.reducePow, Nat.reduceMul, Nat.reduceAdd, Nat.reduceSub,
    Nat.reduceDiv, Nat.reduceMod, Nat.zero_mul, Nat.mul_zero, Nat.zero_add,
    Nat.add_zero, Nat.zero_div, Nat.zero_mod, Nat.zero_or, Nat.or_zero]
  simp only [List.cons.injEq, and_true, true_and]
  repeat' apply And.intro
  all_goals omega

theorem drop1_range16 : (List.range 16).drop 1 = [1, 2, 3, 4, 5, 6, 7, 8, 9, 10, 11, 12, 13, 14, 15] := by rfl

set_option maxRecDepth 100000 in
set_option maxHeartbeats 8000000 in
theorem polyToData_bytes (e0 e1 e2 e3 e4 e5 e6 e7 e8 e9 e10 e11 e12 e13 e14 e15 : Nat)
    (g1 : e1 < 2048) (g2 : e2 < 2048) (g3 : e3 < 2048) (g4 : e4 < 2048)
    (g5 : e5 < 2048) (g6 : e6 < 2048) (g7 : e7 < 2048) (g8 : e8 < 2048)
    (g9 : e9 < 2048) (g10 : e10 < 2048) (g11 : e11 < 2048) (g12 : e12 < 2048)
    (g13 : e13 < 2048) (g14 : e14 < 2048) (g15 : e15 < 2048) :
    polyToData [e0, e1, e2, e3, e4, e5, e6, e7, e8, e9, e10, e11, e12, e13,
        e14, e15] =
      ⟨e6 % 2 * 512 + e7 % 2 * 256 + e8 % 2 * 128 + e9 % 2 * 64 + e10 % 2 * 32
          + e11 % 2 * 16 + e12 % 2 * 8 + e13 % 2 * 4 + e14 % 2 * 2 + e15 % 2,
       e1 % 2 * 16 + e2 % 2 * 8 + e3 % 2 * 4 + e4 % 2 * 2 + e5 % 2,
       [e1 / 2 / 4,
        e1 / 2 % 4 * 64 + e2 / 2 / 16,
        e2 / 2 % 16 * 16 + e3 / 2 / 64,
        e3 / 2 % 64 * 4 + e4 / 2 / 256,
        e4 / 2 % 256,
        e5 / 2 / 4,
        e5 / 2 % 4 * 64 + e6 / 2 / 16,
        e6 / 2 % 16 * 16 + e7 / 2 / 64,
        e7 / 2 % 64 * 4 + e8 / 2 / 256,
        e8 / 2 % 256,
        e9 / 2 / 4,
        e9 / 2 % 4 * 64 + e10 / 2 / 16,
        e10 / 2 % 16 * 16 + e11 / 2 / 64,
        e11 / 2 % 64 * 4 + e12 / 2 / 256,
        e12 / 2 % 256,
        e13 / 2 / 4,
        e13 / 2 % 4 * 64 + e14 / 2 / 16,
        e14 / 2 % 16 * 16 + e15 / 2 / 64,
        e15 / 2 % 64] ++ List.replicate 13 0,
       e0⟩ := by
  simp only [polyToData, polyToDataOuter, polyToDataWord, polyToDataStep,
    shareBits, charBits, gfBits, dateBits, DateBits, dateMask, DateMask,
    polyNumCheckDigits, NumWords, drop1_range16,
    List.foldl_cons, List.foldl_nil,
    List.getD_cons_zero, List.getD_cons_succ, List.cons_append,
    List.set_cons_zero, List.set_cons_succ, List.replicate,
    Nat.reduceAdd, Nat.reduceSub, Nat.reduceLT, Nat.reduceGT,
    Nat.reduceShiftLeft, Nat.reduceEqDiff, Nat.reduceBEq, reduceIte,
    Nat.reduceMul, Nat.reduceDiv, Nat.reduceMod, Nat.reducePow,
    List.nil_append]
  simp (disch := omega) only [Nat.shiftLeft_eq, Nat.shiftRight_eq_div_pow,
    Nat.and_one_is_mod, and_mod_3, and_mod_15, and_mod_63, and_mod_255,
    and_mod_1023, lor_add_2, lor_add_4, lor_add_16, lor_add_64, lor_add_256,
    lor_add_1024, Nat.reducePow, Nat.reduceMul, Nat.reduceAdd, Nat.reduceSub,
    Nat.reduceDiv, Nat.reduceMod, Nat.zero_mul, Nat.mul_zero, Nat.zero_add,
    Nat.add_zero, Nat.zero_div, Nat.zero_mod, Nat.zero_or, Nat.or_zero]
  simp only [Data.mk.injEq, List.cons.injEq, and_true, true_and]
  repeat' apply And.intro
  all_goals omega

theorem mod2_drop (t u : Nat) : (t * 2 + u % 2) % 2 = u % 2 := by omega

theorem bits10_reassemble (M : Nat) :
    M / 512 % 2 * 512 + M / 256 % 2 * 256 + M / 128 % 2 * 128 + M / 64 % 2 * 64 +
    M / 32 % 2 * 32 + M / 16 % 2 * 16 + M / 8 % 2 * 8 + M / 4 % 2 * 4 +
    M / 2 % 2 * 2 + M % 2 = M % 1024 := by
  have e1 : M % 4 = M / 2 % 2 * 2 + M % 2 := by omega
  have e2 : M % 8 = M / 4 % 2 * 4 + M % 4 := by omega
  have e3 : M % 16 = M / 8 % 2 * 8 + M % 8 := by omega
  have e4 : M % 32 = M / 16 % 2 * 16 + M % 16 := by omega
  have e5 : M % 64 = M / 32 % 2 * 32 + M % 32 := by omega
  have e6 : M % 128 = M / 64 % 2 * 64 + M % 64 := by omega
  have e7 : M % 256 = M / 128 % 2 * 128 + M % 128 := by omega
  have e8 : M % 512 = M / 256 % 2 * 256 + M % 256 := by omega
  have e9 : M % 1024 = M / 512 % 2 * 512 + M % 512 := by omega
  omega

set_option maxRecDepth 100000 in
set_option maxHeartbeats 8000000 in
theorem polyToData_dataToPoly (b f ck x : Nat)
    (s0 s1 s2 s3 s4 s5 s6 s7 s8 s9 s10 s11 s12 s13 s14 s15 s16 s17 s18 : Nat)
    (rest : List Nat)
    (hb : b < 1024) (hf : f < 32)
    (h0 : s0 < 256) (h1 : s1 < 256) (h2 : s2 < 256) (h3 : s3 < 256)
    (h4 : s4 < 256) (h5 : s5 < 256) (h6 : s6 < 256) (h7 : s7 < 256)
    (h8 : s8 < 256) (h9 : s9 < 256) (h10 : s10 < 256) (h11 : s11 < 256)
    (h12 : s12 < 256) (h13 : s13 < 256) (h14 : s14 < 256) (h15 : s15 < 256)
    (h16 : s16 < 256) (h17 : s17 < 256) (h18 : s18 < 64) :
    polyToData (dataToPoly ⟨b, f, [s0, s1, s2, s3, s4, s5, s6, s7, s8, s9, s10,
        s11, s12, s13, s14, s15, s16, s17, s18] ++ rest, ck⟩
        (x :: List.replicate 15 0)) =
      ⟨b, f, [s0, s1, s2, s3, s4, s5, s6, s7, s8, s9, s10, s11, s12, s13, s14,
        s15, s16, s17, s18] ++ List.replicate 13 0, x⟩ := by
  rw [dataToPoly_bytes b f ck x s0 s1 s2 s3 s4 s5 s6 s7 s8 s9 s10 s11 s12 s13
    s14 s15 s16 s17 s18 rest hb h0 h1 h2 h3 h4 h5 h6 h7 h8 h9 h10 h11 h12
    h13 h14 h15 h16 h17 h18]
  rw [polyToData_bytes _ _ _ _ _ _ _ _ _ _ _ _ _ _ _ _
    (by omega) (by omega) (by omega) (by omega) (by omega) (by omega)
    (by omega) (by omega) (by omega) (by omega) (by omega) (by omega)
    (by omega) (by omega) (by omega)]
  simp only [List.cons_append, List.nil_append, List.replicate, Data.mk.injEq,
    List.cons.injEq, and_true, true_and]
  repeat' apply And.intro
  all_goals (first
    | (simp only [mod2_drop]; rw [bits10_reassemble]; omega)
    | omega)

/-! ### Word-lookup comparator (lang.go `comparePrefix`).

Tokens are compared code-point-wise; Go `[]rune` is modelled as `List Char`.
The source name ends in a word the toolchain reserves, so the definition
carries the suffix `4` (from `numCharsPrefix = 4`). -/

def numCharsPrefix4 : Nat := 4

/-- The scanning loop of Go `comparePrefix`: starting from `i = 1`, consume
paired equal code points and stop when the key is empty, when `i ≥ 4` and
exactly one key rune remains, when the element is empty, or at the first
mismatch.  Returns the remaining rune lists. -/
def comparePrefix4Loop : List Char → List Char → Nat → List Char × List Char
  | [], elm, _ => ([], elm)
  | k :: ks, elm, i =>
      if numCharsPrefix4 ≤ i ∧ ks = [] then (k :: ks, elm)
      else
        match elm with
        | [] => (k :: ks, [])
        | e :: es =>
          if k ≠ e then (k :: ks, e :: es)
          else comparePrefix4Loop ks es (i + 1)

/-- Go `comparePrefix` (lang.go): the post-loop comparison returns 0 only when
both rune lists were fully consumed; otherwise -1/1 by emptiness and then by
comparing the first remaining runes, with `1` returned when they are equal. -/
def comparePrefix4 (key elm : List Char) : Int :=
  let r := comparePrefix4Loop key elm 1
  let keyRunes := r.1
  let elmRunes := r.2
  if keyRunes = [] ∧ elmRunes = [] then 0
  else if keyRunes = [] then -1
  else if elmRunes = [] then 1
  else if keyRunes.headD 'a' < elmRunes.headD 'a' then -1
  else 1

/-- Claim C2 (code_bug record): the 4-character prefix comparator does NOT
behave as claimed.  Evaluating the code at the failing inputs: two identical
4-code-point tokens (`lamp`) compare as 1, not equal; two identical tokens
longer than 4 code points with matching 4-prefix (`raven`) also compare as 1;
only identical tokens of at most 3 code points compare equal.  The claim
(and the function's own documentation) requires 0 in the first two cases. -/
theorem claim_C2 :
    comparePrefix4 ['l', 'a', 'm', 'p'] ['l', 'a', 'm', 'p'] = 1 ∧
    comparePrefix4 ['r', 'a', 'v', 'e', 'n'] ['r', 'a', 'v', 'e', 'n'] = 1 ∧
    comparePrefix4 ['r', 'a', 'v', 'e'] ['r', 'a', 'v', 'e', 'n'] = 1 ∧
    comparePrefix4 ['e', 'j', 'e'] ['e', 'j', 'e'] = 0 := by
  decide

/-- Claim C10: `GetFeature` returns `features &&& mask &&& 0b111`; feature
bits 3 (reserved) and 4 (encrypted) are never observable through it. -/
theorem claim_C10 (s : Seed) (mask : Nat) :
    s.GetFeature mask = s.features &&& mask &&& 7 ∧
    (s.GetFeature mask).testBit 3 = false ∧
    (s.GetFeature mask).testBit 4 = false := by
  have hval : s.GetFeature mask = s.features &&& (mask &&& 7) := rfl
  have hle : s.GetFeature mask < 8 := by
    rw [hval]
    calc s.features &&& (mask &&& 7) ≤ mask &&& 7 := Nat.and_le_right
    _ ≤ 7 := Nat.and_le_right
    _ < 8 := by norm_num
  refine ⟨?_, ?_, ?_⟩
  · rw [hval, Nat.and_assoc]
  · exact Nat.testBit_lt_two_pow (by omega)
  · exact Nat.testBit_lt_two_pow (by omega)

theorem range3_eq : List.range 3 = [0, 1, 2] := by rfl

set_option maxRecDepth 8192 in
/-- Popcount of the low three bits, checked exhaustively over all `uint8`
arguments (the registry state argument is irrelevant by definition). -/
theorem enableFeatures_count : ∀ m < 256,
    (EnableFeatures m 0).2 = m % 2 + m / 2 % 2 + m / 4 % 2 := by decide

/-- Claim C9: `EnableFeatures` first resets the reserved mask to its startup
value, so a second call fully overrides the first, and each call returns the
number of set bits among the low 3 bits of its argument. -/
theorem claim_C9 (m1 m2 st : Nat) (hm2 : m2 < 256) :
    EnableFeatures m2 (EnableFeatures m1 st).1 = EnableFeatures m2 st ∧
    (EnableFeatures m2 st).2 = m2 % 2 + m2 / 2 % 2 + m2 / 4 % 2 := by
  constructor
  · rfl
  · have h : EnableFeatures m2 st = EnableFeatures m2 0 := rfl
    rw [h]
    exact enableFeatures_count m2 hm2

theorem claim_C9_witness :
    (EnableFeatures 5 (EnableFeatures 7 (featureMask ^^^ encryptedMask)).1 =
      EnableFeatures 5 (featureMask ^^^ encryptedMask)) ∧
    (EnableFeatures 5 (featureMask ^^^ encryptedMask)).2 = 5 % 2 + 5 / 2 % 2 + 5 / 4 % 2 :=
  claim_C9 7 5 (featureMask ^^^ encryptedMask) (by decide)

/-- Claim C8 (counterexample): `Encode` does not first clear the old check
digit, so checking immediately after encoding a polynomial whose coefficient 0
was nonzero fails. -/
theorem claim_C8_counterexample :
    gfCheck (gfEncode ((1 : Nat) :: List.replicate 15 0)) = false := by
  decide

/-- Claim C8 (amended): `Check` holds exactly when the Horner evaluation is 0;
evaluating right after `Encode` returns the previous coefficient 0, so
`Check` succeeds immediately after `Encode` exactly when coefficient 0 was
zero beforehand — in particular it always succeeds when `Encode` is applied
to a polynomial whose check digit was cleared, which is what every call site
does. -/
theorem claim_C8 (x : Nat) (cs : List Nat) (h : cs ≠ []) :
    (gfCheck (x :: cs) = true ↔ gfEval (x :: cs) = 0) ∧
    gfEval (gfEncode (x :: cs)) = x ∧
    gfCheck (gfEncode ((0 : Nat) :: cs)) = true := by
  have henc : gfEncode (x :: cs) = gfEval (x :: cs) :: cs := by
    simp [gfEncode]
  have heval : ∀ y : Nat, gfEval (y :: cs) = gfEval ((0 : Nat) :: cs) ^^^ y :=
    fun y => gfEval_cons_zero y cs h
  refine ⟨by simp [gfCheck], ?_, ?_⟩
  · rw [henc, heval (gfEval (x :: cs)), heval x]
    rw [Nat.xor_cancel_left]
  · have henc0 : gfEncode ((0 : Nat) :: cs) = gfEval ((0 : Nat) :: cs) :: cs := by
      simp [gfEncode]
    rw [henc0]
    simp only [gfCheck]
    rw [heval (gfEval ((0 : Nat) :: cs)), Nat.xor_self]
    simp

theorem claim_C8_witness :
    ((gfCheck ((5 : Nat) :: List.replicate 15 0) = true ↔
      gfEval ((5 : Nat) :: List.replicate 15 0) = 0) ∧
    gfEval (gfEncode ((5 : Nat) :: List.replicate 15 0)) = 5 ∧
    gfCheck (gfEncode ((0 : Nat) :: List.replicate 15 0)) = true) :=
  claim_C8 5 (List.replicate 15 0) (by decide)

/-! ### Storage codec (storage.go) -/

/-- ASCII bytes of the Go string constant `storageHeader = "POLYSEED"`. -/
def storageHeaderBytes : List Nat := [80, 79, 76, 89, 83, 69, 69, 68]

def headerSize : Nat := 8

def extraByte : Nat := 255

def storageFooter : Nat := 28672

/-- Go `store16` (little-endian `PutUint16`). -/
def store16 (u : Nat) : List Nat := [u % 256, (u >>> 8) % 256]

/-- Go `load16` (little-endian `Uint16`). -/
def load16 (p : List Nat) : Nat := p.getD 0 0 ||| p.getD 1 0 <<< 8

/-- Go `dataStore`: header, `(features << 10) | birthday`, the 19 secret
bytes, the `0xFF` sentinel, and `0x7000 | checksum`.  The 16-bit value
`features << 10 | birthday` is computed in `uint16`, hence the truncation. -/
def dataStore (d : Data) : List Nat :=
  storageHeaderBytes ++
  store16 ((d.features <<< dateBits ||| d.birthday) % 65536) ++
  d.secret.take secretSize ++
  [extraByte] ++
  store16 (storageFooter ||| d.checksum)

/-- Go `dataLoad`: sequential validation of header, feature field, secret
padding bits, sentinel and footer.  `&^ clearMask` is and-not, i.e. `&&&`
with the `uint8` complement `clearMask ^^^ 255`; `v2 &^= gfMask` is `&&&`
with the `uint16` complement `gfMask ^^^ 65535`. -/
def dataLoad (storage : List Nat) : Except Status Data :=
  if storage.take headerSize ≠ storageHeaderBytes then .error .StatusErrFormat
  else
    let v1 := load16 (storage.drop headerSize)
    let birthday := v1 &&& dateMask
    let v1 := v1 >>> dateBits
    if v1 > featureMask then .error .StatusErrFormat
    else
      let features := v1
      let secret := (storage.drop (headerSize + 2)).take secretSize ++
        List.replicate (32 - secretSize) 0
      if secret.getD (secretSize - 1) 0 &&& (clearMask ^^^ 255) ≠ 0 then
        .error .StatusErrFormat
      else if storage.getD (headerSize + 2 + secretSize) 0 ≠ extraByte then
        .error .StatusErrFormat
      else
        let v2 := load16 (storage.drop (headerSize + 2 + secretSize + 1))
        let checksum := v2 &&& gfMask
        let v2 := v2 &&& (gfMask ^^^ 65535)
        if v2 ≠ storageFooter then .error .StatusErrFormat
        else .ok ⟨birthday, features, secret, checksum⟩

def Seed.Store (s : Seed) : List Nat :=
  dataStore s.toData

/-- The checksum computed by `Create`/`Crypt`: encode the data polynomial
over a fresh all-zero `gfPoly` and read back coefficient 0.  The `checksum`
field of the scratch record is irrelevant to this computation. -/
def seedChecksum (birthday features : Nat) (secret : List Nat) : Nat :=
  (gfEncode (dataToPoly ⟨birthday, features, secret, 0⟩
    (List.replicate NumWords 0))).getD 0 0

/-- Go `Load` (polyseed.go): deserialize, verify the GF checksum (no coin is
involved anywhere in the storage format), and check the features against the
process-wide reserved mask, passed explicitly. -/
def Load (storage : List Nat) (reservedFeatures : Nat) : Except Status Seed :=
  match dataLoad storage with
  | .error e => .error e
  | .ok d =>
    let p := (List.replicate NumWords 0).set 0 d.checksum
    let p := dataToPoly d p
    if ¬ gfCheck p then .error .StatusErrChecksum
    else if ¬ featuresSupported d.features reservedFeatures then
      .error .StatusErrUnsupported
    else .ok (seedFromData d)

/-! ### Bit lemmas for the storage layout -/

theorem and_mod_2047 (x : Nat) : x &&& 2047 = x % 2048 := by
  have h := Nat.and_pow_two_sub_one_eq_mod x 11
  norm_num at h
  exact h

theorem lt_two_pow_mono {s b i : Nat} (h : s < 2 ^ b) (hbi : b ≤ i) : s < 2 ^ i :=
  lt_of_lt_of_le h (Nat.pow_le_pow_right (by norm_num) hbi)

theorem and192_eq_zero (s : Nat) (h : s < 64) : s &&& 192 = 0 := by
  apply Nat.eq_of_testBit_eq
  intro i
  simp only [Nat.testBit_and, Nat.zero_testBit]
  by_cases hi : i < 6
  · have h192 : (192 : Nat).testBit i = false := by interval_cases i <;> decide
    simp [h192]
  · have hs : s.testBit i = false :=
      Nat.testBit_lt_two_pow (lt_two_pow_mono (show s < 2 ^ 6 by omega) (by omega))
    simp [hs]

theorem and_63488_zero (r : Nat) (hr : r < 2048) : r &&& 63488 = 0 := by
  apply Nat.eq_of_testBit_eq
  intro i
  simp only [Nat.testBit_and, Nat.zero_testBit]
  by_cases hi : i < 11
  · have h63488 : (63488 : Nat).testBit i = false := by interval_cases i <;> decide
    simp [h63488]
  · have hs : r.testBit i = false :=
      Nat.testBit_lt_two_pow (lt_two_pow_mono (show r < 2 ^ 11 by omega) (by omega))
    simp [hs]

theorem and_63488_shiftLeft (q : Nat) (hq : q < 32) :
    63488 &&& q <<< 11 = q <<< 11 := by
  apply Nat.eq_of_testBit_eq
  intro i
  simp only [Nat.testBit_and, Nat.testBit_shiftLeft]
  by_cases hi : i < 11
  · have h1 : ¬ (11 ≤ i) := by omega
    simp [h1]
  · by_cases hi2 : i < 16
    · have h63488 : (63488 : Nat).testBit i = true := by interval_cases i <;> decide
      simp [h63488]
    · have hq2 : q.testBit (i - 11) = false :=
        Nat.testBit_lt_two_pow (lt_two_pow_mono (show q < 2 ^ 5 by omega) (by omega))
      simp [hq2]

/-- Clearing the low 11 bits of a 16-bit value rounds it down to a multiple
of 2048. -/
theorem and_63488_eq (v : Nat) (hv : v < 65536) :
    v &&& 63488 = v / 2048 * 2048 := by
  obtain ⟨q, r, hq, hr, hv2⟩ : ∃ q r, q < 32 ∧ r < 2048 ∧ v = q * 2048 + r :=
    ⟨v / 2048, v % 2048, by omega, by omega, by omega⟩
  subst hv2
  have hdiv : (q * 2048 + r) / 2048 = q := by omega
  rw [hdiv]
  have hlor : q * 2048 + r = q <<< 11 ||| r := by
    rw [shiftLeft_lor_eq_add 11 q r (by omega)]
    norm_num
  rw [hlor, Nat.and_comm, Nat.and_or_distrib_left, and_63488_shiftLeft q hq]
  have h0 : 63488 &&& r = 0 := by rw [Nat.and_comm]; exact and_63488_zero r hr
  rw [h0, Nat.or_zero, Nat.shiftLeft_eq]
  try norm_num

theorem lor_add_lo256 (a b : Nat) (h : a < 256) : a ||| b * 256 = b * 256 + a := by
  rw [Nat.lor_comm]
  exact lor_add_256 b a h

theorem lor28672 (c : Nat) (h : c < 2048) : 28672 ||| c = 28672 + c := by
  have h2 := shiftLeft_lor_eq_add 11 14 c (by omega)
  norm_num [Nat.shiftLeft_eq] at h2
  exact h2

theorem replicate16_zero : List.replicate 16 (0 : Nat) = 0 :: List.replicate 15 0 := by rfl

set_option maxRecDepth 100000 in
set_option maxHeartbeats 4000000 in
theorem dataLoad_dataStore (b f ck : Nat)
    (s0 s1 s2 s3 s4 s5 s6 s7 s8 s9 s10 s11 s12 s13 s14 s15 s16 s17 s18 : Nat)
    (hb : b < 1024) (hf : f < 32) (hck : ck < 2048)
    (h18 : s18 < 64) :
    dataLoad (dataStore ⟨b, f, [s0, s1, s2, s3, s4, s5, s6, s7, s8, s9, s10,
        s11, s12, s13, s14, s15, s16, s17, s18] ++ List.replicate 13 0, ck⟩) =
      .ok ⟨b, f, [s0, s1, s2, s3, s4, s5, s6, s7, s8, s9, s10, s11, s12, s13,
        s14, s15, s16, s17, s18] ++ List.replicate 13 0, ck⟩ := by
  simp (disch := omega) only [dataStore, dataLoad, store16, load16,
    storageHeaderBytes, headerSize, extraByte, storageFooter, secretSize,
    dateBits, DateBits, dateMask, DateMask, featureMask, featureBits,
    gfMask, gfSize, gfBits, clearMask, clearBits, secretBitsConst,
    Seed.toData,
    List.cons_append, List.nil_append, List.take_succ_cons, List.take_zero,
    List.drop_succ_cons, List.drop_zero, List.getD_cons_zero,
    List.getD_cons_succ, List.replicate,
    Nat.reduceAdd, Nat.reduceSub, Nat.reduceMul, Nat.reduceDiv, Nat.reduceMod,
    Nat.reducePow, Nat.reduceShiftLeft, Nat.reduceXor, Nat.reduceLT,
    Nat.reduceGT, Nat.reduceEqDiff, Nat.reduceBEq, reduceIte,
    Nat.shiftLeft_eq, Nat.shiftRight_eq_div_pow,
    and_mod_1023, and_mod_2047, and192_eq_zero, and_63488_eq,
    lor_add_1024, lor_add_lo256, lor28672, Nat.mod_eq_of_lt,
    if_neg, ne_eq, not_true, not_false_iff, not_not,
    Except.ok.injEq, Data.mk.injEq, List.cons.injEq,
    and_true, true_and]
  repeat' apply And.intro
  all_goals omega

theorem dataToPoly_ck_irrel (b f c c' : Nat) (sec p : List Nat) :
    dataToPoly ⟨b, f, sec, c⟩ p = dataToPoly ⟨b, f, sec, c'⟩ p := rfl

set_option maxRecDepth 100000 in
set_option maxHeartbeats 4000000 in
theorem seedChecksum_eval (b f : Nat)
    (s0 s1 s2 s3 s4 s5 s6 s7 s8 s9 s10 s11 s12 s13 s14 s15 s16 s17 s18 : Nat)
    (rest : List Nat)
    (hb : b < 1024)
    (h0 : s0 < 256) (h1 : s1 < 256) (h2 : s2 < 256) (h3 : s3 < 256)
    (h4 : s4 < 256) (h5 : s5 < 256) (h6 : s6 < 256) (h7 : s7 < 256)
    (h8 : s8 < 256) (h9 : s9 < 256) (h10 : s10 < 256) (h11 : s11 < 256)
    (h12 : s12 < 256) (h13 : s13 < 256) (h14 : s14 < 256) (h15 : s15 < 256)
    (h16 : s16 < 256) (h17 : s17 < 256) (h18 : s18 < 64) :
    seedChecksum b f ([s0, s1, s2, s3, s4, s5, s6, s7, s8, s9, s10, s11, s12,
        s13, s14, s15, s16, s17, s18] ++ rest) =
      gfEval (dataToPoly ⟨b, f, [s0, s1, s2, s3, s4, s5, s6, s7, s8, s9, s10,
        s11, s12, s13, s14, s15, s16, s17, s18] ++ rest, 0⟩
        ((0 : Nat) :: List.replicate 15 0)) ∧
    seedChecksum b f ([s0, s1, s2, s3, s4, s5, s6, s7, s8, s9, s10, s11, s12,
        s13, s14, s15, s16, s17, s18] ++ rest) < 2048 := by
  unfold seedChecksum
  rw [show List.replicate NumWords (0 : Nat) = (0 : Nat) :: List.replicate 15 0 from rfl]
  rw [dataToPoly_bytes b f 0 0 s0 s1 s2 s3 s4 s5 s6 s7 s8 s9 s10 s11 s12 s13
    s14 s15 s16 s17 s18 rest hb h0 h1 h2 h3 h4 h5 h6 h7 h8 h9 h10 h11 h12 h13
    h14 h15 h16 h17 h18]
  constructor
  · simp [gfEncode]
  · simp only [gfEncode, List.set_cons_zero, List.getD_cons_zero]
    apply gfEval_lt
    intro c hc
    simp only [List.mem_cons, List.not_mem_nil, or_false] at hc
    rcases hc with rfl | rfl | rfl | rfl | rfl | rfl | rfl | rfl | rfl | rfl |
      rfl | rfl | rfl | rfl | rfl | rfl <;> omega

set_option maxRecDepth 100000 in
set_option maxHeartbeats 4000000 in
/-- Claim C6: storage round-trip for every valid seed; no coin enters the
storage format anywhere. -/
theorem claim_C6 (b f ck r : Nat)
    (s0 s1 s2 s3 s4 s5 s6 s7 s8 s9 s10 s11 s12 s13 s14 s15 s16 s17 s18 : Nat)
    (hb : b < 1024) (hf : f < 32)
    (h0 : s0 < 256) (h1 : s1 < 256) (h2 : s2 < 256) (h3 : s3 < 256)
    (h4 : s4 < 256) (h5 : s5 < 256) (h6 : s6 < 256) (h7 : s7 < 256)
    (h8 : s8 < 256) (h9 : s9 < 256) (h10 : s10 < 256) (h11 : s11 < 256)
    (h12 : s12 < 256) (h13 : s13 < 256) (h14 : s14 < 256) (h15 : s15 < 256)
    (h16 : s16 < 256) (h17 : s17 < 256) (h18 : s18 < 64)
    (hsupp : featuresSupported f r = true)
    (hchk : ck = seedChecksum b f ([s0, s1, s2, s3, s4, s5, s6, s7, s8, s9,
      s10, s11, s12, s13, s14, s15, s16, s17, s18] ++ List.replicate 13 0)) :
    Load (Seed.Store ⟨b, f, [s0, s1, s2, s3, s4, s5, s6, s7, s8, s9, s10, s11,
        s12, s13, s14, s15, s16, s17, s18] ++ List.replicate 13 0, ck⟩) r =
      .ok ⟨b, f, [s0, s1, s2, s3, s4, s5, s6, s7, s8, s9, s10, s11, s12, s13,
        s14, s15, s16, s17, s18] ++ List.replicate 13 0, ck⟩ := by
  have hse := seedChecksum_eval b f s0 s1 s2 s3 s4 s5 s6 s7 s8 s9 s10 s11 s12
    s13 s14 s15 s16 s17 s18 (List.replicate 13 0) hb h0 h1 h2 h3 h4 h5 h6 h7
    h8 h9 h10 h11 h12 h13 h14 h15 h16 h17 h18
  have hcklt : ck < 2048 := by rw [hchk]; exact hse.2
  have hload := dataLoad_dataStore b f ck s0 s1 s2 s3 s4 s5 s6 s7 s8 s9 s10
    s11 s12 s13 s14 s15 s16 s17 s18 hb hf hcklt h18
  have hstore : Seed.Store ⟨b, f, [s0, s1, s2, s3, s4, s5, s6, s7, s8, s9,
      s10, s11, s12, s13, s14, s15, s16, s17, s18] ++ List.replicate 13 0, ck⟩ =
      dataStore ⟨b, f, [s0, s1, s2, s3, s4, s5, s6, s7, s8, s9, s10, s11, s12,
        s13, s14, s15, s16, s17, s18] ++ List.replicate 13 0, ck⟩ := rfl
  rw [hstore]
  unfold Load
  rw [hload]
  dsimp only
  rw [show ((List.replicate NumWords (0 : Nat)).set 0 ck) =
    ck :: List.replicate 15 0 from rfl]
  rw [dataToPoly_bytes b f ck ck s0 s1 s2 s3 s4 s5 s6 s7 s8 s9 s10 s11 s12 s13
    s14 s15 s16 s17 s18 (List.replicate 13 0) hb h0 h1 h2 h3 h4 h5 h6 h7 h8 h9
    h10 h11 h12 h13 h14 h15 h16 h17 h18]
  have hck0 : ck = gfEval ((0 : Nat) :: ((dataToPoly ⟨b, f, [s0, s1, s2, s3,
      s4, s5, s6, s7, s8, s9, s10, s11, s12, s13, s14, s15, s16, s17,
      s18] ++ List.replicate 13 0, 0⟩ ((0 : Nat) :: List.replicate 15 0)).drop 1)) := by
    rw [hchk, hse.1]
    rw [dataToPoly_bytes b f 0 0 s0 s1 s2 s3 s4 s5 s6 s7 s8 s9 s10 s11 s12 s13
      s14 s15 s16 s17 s18 (List.replicate 13 0) hb h0 h1 h2 h3 h4 h5 h6 h7 h8
      h9 h10 h11 h12 h13 h14 h15 h16 h17 h18]
    simp
  rw [dataToPoly_bytes b f 0 0 s0 s1 s2 s3 s4 s5 s6 s7 s8 s9 s10 s11 s12 s13
    s14 s15 s16 s17 s18 (List.replicate 13 0) hb h0 h1 h2 h3 h4 h5 h6 h7 h8
    h9 h10 h11 h12 h13 h14 h15 h16 h17 h18] at hck0
  simp only [List.drop_succ_cons, List.drop_zero] at hck0
  have hcheck : gfCheck (ck :: [(s0 * 4 + s1 / 64) * 2 + (f * 1024 + b) / 16384 % 2,
       (s1 % 64 * 16 + s2 / 16) * 2 + (f * 1024 + b) / 8192 % 2,
       (s2 % 16 * 64 + s3 / 4) * 2 + (f * 1024 + b) / 4096 % 2,
       (s3 % 4 * 256 + s4) * 2 + (f * 1024 + b) / 2048 % 2,
       (s5 * 4 + s6 / 64) * 2 + (f * 1024 + b) / 1024 % 2,
       (s6 % 64 * 16 + s7 / 16) * 2 + (f * 1024 + b) / 512 % 2,
       (s7 % 16 * 64 + s8 / 4) * 2 + (f * 1024 + b) / 256 % 2,
       (s8 % 4 * 256 + s9) * 2 + (f * 1024 + b) / 128 % 2,
       (s10 * 4 + s11 / 64) * 2 + (f * 1024 + b) / 64 % 2,
       (s11 % 64 * 16 + s12 / 16) * 2 + (f * 1024 + b) / 32 % 2,
       (s12 % 16 * 64 + s13 / 4) * 2 + (f * 1024 + b) / 16 % 2,
       (s13 % 4 * 256 + s14) * 2 + (f * 1024 + b) / 8 % 2,
       (s15 * 4 + s16 / 64) * 2 + (f * 1024 + b) / 4 % 2,
       (s16 % 64 * 16 + s17 / 16) * 2 + (f * 1024 + b) / 2 % 2,
       (s17 % 16 * 64 + s18) * 2 + (f * 1024 + b) % 2]) = true := by
    simp only [gfCheck]
    rw [gfEval_cons_zero _ _ (by simp)]
    rw [← hck0]
    simp [Nat.xor_self]
  rw [hcheck]
  simp only [not_true, if_false, ite_false, Bool.not_eq_true]
  simp only [hsupp]
  simp [seedFromData]

set_option maxRecDepth 100000 in
theorem claim_C6_witness :
    Load (Seed.Store ⟨1, 0, [221, 118, 231, 53, 154, 13, 237, 55, 205, 15,
        240, 243, 200, 41, 165, 174, 1, 103, 51] ++ List.replicate 13 0,
        1427⟩) reservedFeaturesInit =
      .ok ⟨1, 0, [221, 118, 231, 53, 154, 13, 237, 55, 205, 15, 240, 243, 200,
        41, 165, 174, 1, 103, 51] ++ List.replicate 13 0, 1427⟩ :=
  claim_C6 1 0 1427 reservedFeaturesInit 221 118 231 53 154 13 237 55 205 15
    240 243 200 41 165 174 1 103 51 (by decide) (by decide) (by decide)
    (by decide) (by decide) (by decide) (by decide) (by decide) (by decide)
    (by decide) (by decide) (by decide) (by decide) (by decide) (by decide)
    (by decide) (by decide) (by decide) (by decide) (by decide) (by decide)
    (by decide) (by decide)

/-- The byte-18 padding check of `dataLoad`: any blob whose secret byte 18
has one of its two high bits set is rejected with `ErrFormat` (as are blobs
failing any earlier structural check — every `dataLoad` failure is
`ErrFormat`). -/
theorem dataLoad_badByte18 (b0 b1 b2 b3 b4 b5 b6 b7 b8 b9 b10 b11 b12 b13 b14
    b15 b16 b17 b18 b19 b20 b21 b22 b23 b24 b25 b26 b27 b28 b29 b30 b31 : Nat)
    (h : b28 &&& 192 ≠ 0) :
    dataLoad [b0, b1, b2, b3, b4, b5, b6, b7, b8, b9, b10, b11, b12, b13, b14,
      b15, b16, b17, b18, b19, b20, b21, b22, b23, b24, b25, b26, b27, b28,
      b29, b30, b31] = .error .StatusErrFormat := by
  simp only [dataLoad, storageHeaderBytes, headerSize, extraByte,
    storageFooter, secretSize, dateBits, DateBits, dateMask, DateMask,
    featureMask, featureBits, gfMask, gfSize, gfBits, clearMask, clearBits,
    secretBitsConst, load16,
    List.take_succ_cons, List.take_zero, List.drop_succ_cons, List.drop_zero,
    List.getD_cons_zero, List.getD_cons_succ, List.cons_append,
    List.nil_append, List.replicate,
    Nat.reduceAdd, Nat.reduceSub, Nat.reduceMul, Nat.reduceShiftLeft,
    Nat.reduceXor]
  split_ifs <;> first | rfl | exact absurd h (by assumption)

set_option maxRecDepth 100000 in
/-- Claim C1 (counterexample): a well-formed blob whose secret byte 18 is
`0x04` — a value with one of the claimed six high bits set but with both
actual padding bits clear — is accepted by `Load`, not rejected with
`ErrFormat`. -/
theorem claim_C1_counterexample :
    Load [80, 79, 76, 89, 83, 69, 69, 68, 0, 0,
      0, 0, 0, 0, 0, 0, 0, 0, 0, 0, 0, 0, 0, 0, 0, 0, 0, 0, 4,
      255, 128, 114] reservedFeaturesInit =
      .ok ⟨0, 0, [0, 0, 0, 0, 0, 0, 0, 0, 0, 0, 0, 0, 0, 0, 0, 0, 0, 0, 4] ++
        List.replicate 13 0, 640⟩ ∧
    (4 : Nat) &&& 252 ≠ 0 := by
  constructor
  · rfl
  · decide

/-- Claim C1 (amended): the live mask of secret byte 18 is `0x3F`, not
`0x03`: `clearMask = 63`, so the constructors' masking step
`secret[18] &= clearMask` establishes `secret[18] & 0xC0 == 0` (only the two
high bits are dead), and `Load` rejects with `ErrFormat` every 32-byte blob
whose secret byte 18 (offset 28) has one of its two high bits set. -/
theorem claim_C1 (b0 b1 b2 b3 b4 b5 b6 b7 b8 b9 b10 b11 b12 b13 b14 b15 b16
    b17 b18 b19 b20 b21 b22 b23 b24 b25 b26 b27 b28 b29 b30 b31 : Nat)
    (hbad : b28 &&& 192 ≠ 0) :
    clearMask = 63 ∧
    (∀ byte : Nat, (byte &&& clearMask) &&& 192 = 0) ∧
    (∀ r : Nat, Load [b0, b1, b2, b3, b4, b5, b6, b7, b8, b9, b10, b11, b12,
      b13, b14, b15, b16, b17, b18, b19, b20, b21, b22, b23, b24, b25, b26,
      b27, b28, b29, b30, b31] r = .error .StatusErrFormat) := by
  refine ⟨by decide, ?_, ?_⟩
  · intro byte
    rw [show clearMask = 63 from rfl, Nat.and_assoc,
      show (63 &&& 192 : Nat) = 0 from rfl, Nat.and_zero]
  · intro r
    unfold Load
    rw [dataLoad_badByte18 b0 b1 b2 b3 b4 b5 b6 b7 b8 b9 b10 b11 b12 b13 b14
      b15 b16 b17 b18 b19 b20 b21 b22 b23 b24 b25 b26 b27 b28 b29 b30 b31 hbad]

theorem claim_C1_witness :
    clearMask = 63 ∧
    (∀ byte : Nat, (byte &&& clearMask) &&& 192 = 0) ∧
    (∀ r : Nat, Load [80, 79, 76, 89, 83, 69, 69, 68, 0, 0,
      0, 0, 0, 0, 0, 0, 0, 0, 0, 0, 0, 0, 0, 0, 0, 0, 0, 0, 255,
      255, 128, 114] r = .error .StatusErrFormat) :=
  claim_C1 80 79 76 89 83 69 69 68 0 0 0 0 0 0 0 0 0 0 0 0 0 0 0 0 0 0 0 0
    255 255 128 114 (by decide)

/-! ### Key derivation and passphrase encryption (polyseed.go).

The injected primitives — PBKDF2-HMAC-SHA256 and the NFKD normalizer from
`golang.org/x` — are modelled as explicit function parameters; the code under
verification only assembles their inputs. -/

/-- UTF-8 bytes of a string (Go `[]byte(s)`). -/
def strBytes (str : String) : List Nat :=
  str.toUTF8.toList.map (fun b => b.toNat)

/-- ASCII bytes of `"POLYSEED key"`. -/
def polyseedKeyBytes : List Nat :=
  [80, 79, 76, 89, 83, 69, 69, 68, 32, 107, 101, 121]

/-- ASCII bytes of `"POLYSEED mask"` followed by the two appended `0xFF`. -/
def polyseedMaskSalt : List Nat :=
  [80, 79, 76, 89, 83, 69, 69, 68, 32, 109, 97, 115, 107, 255, 255]

/-- Go `copy(l[pos:], src)` for `src` fitting inside `l`. -/
def listWrite (l : List Nat) (pos : Nat) (src : List Nat) : List Nat :=
  l.take pos ++ src ++ l.drop (pos + src.length)

/-- Go `store32`: a 32-bit value in little-endian byte order. -/
def store32 (u : Nat) : List Nat :=
  [u % 256, (u >>> 8) % 256, (u >>> 16) % 256, (u >>> 24) % 256]

/-- The 32-byte salt assembled by `Seed.Keygen`. -/
def keygenSalt (coin birthday features : Nat) : List Nat :=
  let salt := List.replicate 32 0
  let salt := listWrite salt 0 polyseedKeyBytes
  let salt := salt.set 13 255
  let salt := salt.set 14 255
  let salt := salt.set 15 255
  let salt := listWrite salt 16 (store32 coin)
  let salt := listWrite salt 20 (store32 birthday)
  let salt := listWrite salt 24 (store32 features)
  salt

/-- Go `Seed.Keygen`, parametric in the injected PBKDF2 primitive. -/
def Seed.Keygen (pbkdf2SHA256 : List Nat → List Nat → Nat → Nat → List Nat)
    (s : Seed) (coin : Nat) (keySize : Nat) : List Nat :=
  let d := s.toData
  pbkdf2SHA256 d.secret (keygenSalt coin d.birthday d.features)
    kdfNumIterations keySize

/-- Go `Seed.Crypt`, parametric in the injected NFKD normalizer and PBKDF2
primitive.  The global-free translation updates the seed in place by
returning the new record. -/
def Seed.Crypt (utf8NFKD : String → String)
    (pbkdf2SHA256 : List Nat → List Nat → Nat → Nat → List Nat)
    (s : Seed) (password : String) : Seed :=
  let d := s.toData
  let passBytes := strBytes (utf8NFKD password)
  let mask := pbkdf2SHA256 passBytes polyseedMaskSalt kdfNumIterations 32
  let secret := (List.range secretSize).foldl
    (fun sec i => sec.set i (sec.getD i 0 ^^^ mask.getD i 0)) d.secret
  let secret := secret.set (secretSize - 1)
    (secret.getD (secretSize - 1) 0 &&& clearMask)
  let features := d.features ^^^ encryptedMask
  let p := dataToPoly ⟨d.birthday, features, secret, d.checksum⟩
    (List.replicate NumWords 0)
  let p := gfEncode p
  { birthday := d.birthday, features := features, secret := secret,
    checksum := p.getD 0 0 }

theorem range19_eq : List.range 19 =
    [0, 1, 2, 3, 4, 5, 6, 7, 8, 9, 10, 11, 12, 13, 14, 15, 16, 17, 18] := by rfl

theorem dataToPoly_ck_zero (b f c : Nat) (sec p : List Nat) :
    dataToPoly ⟨b, f, sec, c⟩ p = dataToPoly ⟨b, f, sec, 0⟩ p := rfl

/-- Re-masking byte 18 after a second xor with the same mask byte restores
the original value when its two high bits were clear. -/
theorem mask_xor_mask (s m : Nat) (h : s < 64) :
    ((s ^^^ m) &&& 63 ^^^ m) &&& 63 = s := by
  rw [Nat.and_xor_distrib_right, Nat.and_assoc, Nat.and_self,
    Nat.and_xor_distrib_right, Nat.xor_cancel_right]
  have : s &&& 63 = s % 64 := by
    have h2 := Nat.and_pow_two_sub_one_eq_mod s 6
    norm_num at h2
    exact h2
  rw [this]
  omega

/-- Claim C7: `Keygen` is PBKDF2-HMAC-SHA256 with 10000 iterations, password
the full 32-byte secret buffer, and the exact documented 32-byte salt layout;
the key is a pure function of (secret, birthday, features, coin, key length). -/
theorem claim_C7 (pbkdf2SHA256 : List Nat → List Nat → Nat → Nat → List Nat)
    (s : Seed) (coin keySize : Nat)
    (hc : coin < 65536) (hb : s.birthday < 65536) (hf : s.features < 256) :
    Seed.Keygen pbkdf2SHA256 s coin keySize =
      pbkdf2SHA256 s.secret
        ([80, 79, 76, 89, 83, 69, 69, 68, 32, 107, 101, 121] ++ [0] ++
          [255, 255, 255] ++
          [coin % 256, coin / 256, 0, 0] ++
          [s.birthday % 256, s.birthday / 256, 0, 0] ++
          [s.features, 0, 0, 0] ++ [0, 0, 0, 0])
        10000 keySize ∧
    (∀ s' : Seed, s'.secret = s.secret → s'.birthday = s.birthday →
      s'.features = s.features →
      Seed.Keygen pbkdf2SHA256 s' coin keySize =
        Seed.Keygen pbkdf2SHA256 s coin keySize) := by
  constructor
  · have hsalt : keygenSalt coin s.birthday s.features =
        [80, 79, 76, 89, 83, 69, 69, 68, 32, 107, 101, 121] ++ [0] ++
          [255, 255, 255] ++
          [coin % 256, coin / 256, 0, 0] ++
          [s.birthday % 256, s.birthday / 256, 0, 0] ++
          [s.features, 0, 0, 0] ++ [0, 0, 0, 0] := by
      simp (disch := omega) only [keygenSalt, listWrite, store32,
        polyseedKeyBytes, List.replicate, List.take_succ_cons, List.take_zero,
        List.drop_succ_cons, List.drop_zero, List.cons_append,
        List.nil_append, List.set_cons_zero, List.set_cons_succ, List.length_cons,
        List.length_nil, Nat.reduceAdd, Nat.reduceSub,
        Nat.shiftRight_eq_div_pow, Nat.reducePow, Nat.mod_eq_of_lt,
        Nat.zero_mod, Nat.zero_div, List.cons.injEq, and_true, true_and]
      repeat' apply And.intro
      all_goals omega
    simp only [Seed.Keygen, Seed.toData, kdfNumIterations, hsalt]
  · intro s' h1 h2 h3
    simp only [Seed.Keygen, Seed.toData, h1, h2, h3]

theorem claim_C7_witness :
    (Seed.Keygen (fun password salt iters keyLen =>
        password ++ salt ++ [iters, keyLen]) ⟨7, 3, [9], 5⟩ 2 64 =
      (fun password salt iters keyLen => password ++ salt ++ [iters, keyLen])
        [9]
        ([80, 79, 76, 89, 83, 69, 69, 68, 32, 107, 101, 121] ++ [0] ++
          [255, 255, 255] ++
          [2 % 256, 2 / 256, 0, 0] ++
          [(7 : Nat) % 256, 7 / 256, 0, 0] ++
          [3, 0, 0, 0] ++ [0, 0, 0, 0])
        10000 64) ∧
    (∀ s' : Seed, s'.secret = ([9] : List Nat) → s'.birthday = 7 →
      s'.features = 3 →
      Seed.Keygen (fun password salt iters keyLen =>
        password ++ salt ++ [iters, keyLen]) s' 2 64 =
      Seed.Keygen (fun password salt iters keyLen =>
        password ++ salt ++ [iters, keyLen]) ⟨7, 3, [9], 5⟩ 2 64) :=
  claim_C7 (fun password salt iters keyLen => password ++ salt ++ [iters, keyLen])
    ⟨7, 3, [9], 5⟩ 2 64 (by decide) (by decide) (by decide)

set_option maxRecDepth 100000 in
set_option maxHeartbeats 4000000 in
/-- Claim C5: `Crypt` is an involution on valid seeds: applying it twice with
the same password restores the secret bytes, the birthday, the features (the
encrypted bit 4 is toggled by each single call) and the checksum. -/
theorem claim_C5 (utf8NFKD : String → String)
    (pbkdf2SHA256 : List Nat → List Nat → Nat → Nat → List Nat)
    (password : String) (b f ck : Nat)
    (s0 s1 s2 s3 s4 s5 s6 s7 s8 s9 s10 s11 s12 s13 s14 s15 s16 s17 s18 : Nat)
    (rest : List Nat)
    (h18 : s18 < 64)
    (hchk : ck = seedChecksum b f ([s0, s1, s2, s3, s4, s5, s6, s7, s8, s9,
      s10, s11, s12, s13, s14, s15, s16, s17, s18] ++ rest)) :
    Seed.Crypt utf8NFKD pbkdf2SHA256
      (Seed.Crypt utf8NFKD pbkdf2SHA256
        ⟨b, f, [s0, s1, s2, s3, s4, s5, s6, s7, s8, s9, s10, s11, s12, s13,
          s14, s15, s16, s17, s18] ++ rest, ck⟩ password) password =
      ⟨b, f, [s0, s1, s2, s3, s4, s5, s6, s7, s8, s9, s10, s11, s12, s13, s14,
        s15, s16, s17, s18] ++ rest, ck⟩ ∧
    (Seed.Crypt utf8NFKD pbkdf2SHA256
      ⟨b, f, [s0, s1, s2, s3, s4, s5, s6, s7, s8, s9, s10, s11, s12, s13, s14,
        s15, s16, s17, s18] ++ rest, ck⟩ password).features =
      f ^^^ encryptedMask := by
  constructor
  · simp (disch := omega) only [Seed.Crypt, Seed.toData, secretSize,
      range19_eq, encryptedMask, NumWords,
      List.foldl_cons, List.foldl_nil, List.set_cons_zero, List.set_cons_succ,
      List.getD_cons_zero, List.getD_cons_succ, List.cons_append,
      clearMask, clearBits, secretBitsConst,
      Nat.reduceSub, Nat.reduceAdd, Nat.reduceMul, Nat.reduceShiftLeft,
      Nat.reduceXor, Nat.xor_cancel_right, mask_xor_mask, dataToPoly_ck_zero,
      List.nil_append]
    simp only [Seed.mk.injEq, eq_self_iff_true, true_and, and_true]
    rw [hchk]
    simp only [seedChecksum, NumWords, List.cons_append, List.nil_append]
  · simp only [Seed.Crypt, Seed.toData]

set_option maxRecDepth 100000 in
theorem claim_C5_witness :
    Seed.Crypt (fun str => str) (fun _ _ _ _ => List.range 32)
      (Seed.Crypt (fun str => str) (fun _ _ _ _ => List.range 32)
        ⟨1, 0, [221, 118, 231, 53, 154, 13, 237, 55, 205, 15, 240, 243, 200,
          41, 165, 174, 1, 103, 51] ++ List.replicate 13 0, 1427⟩
        "correct horse") "correct horse" =
      ⟨1, 0, [221, 118, 231, 53, 154, 13, 237, 55, 205, 15, 240, 243, 200, 41,
        165, 174, 1, 103, 51] ++ List.replicate 13 0, 1427⟩ ∧
    (Seed.Crypt (fun str => str) (fun _ _ _ _ => List.range 32)
      ⟨1, 0, [221, 118, 231, 53, 154, 13, 237, 55, 205, 15, 240, 243, 200, 41,
        165, 174, 1, 103, 51] ++ List.replicate 13 0, 1427⟩
      "correct horse").features = 0 ^^^ encryptedMask :=
  claim_C5 (fun str => str) (fun _ _ _ _ => List.range 32) "correct horse"
    1 0 1427 221 118 231 53 154 13 237 55 205 15 240 243 200 41 165 174 1 103
    51 (List.replicate 13 0) (by decide) (by decide)

end Polyseed
